import Mathlib

/-!
Verification of the pixel-wise Cannon model-fitting engine
(`AnniesLasso/cannon.py`).

Numeric values are embedded as exact rationals `ℚ`.  External numeric
routines that the source calls but does not define (the floating-point
`sqrt` and `log`, `scipy.optimize.fmin_powell`, `scipy.optimize.curve_fit`)
are abstracted as function parameters, so every theorem holds for any
behaviour of those externals.  Singularity of a matrix (numpy's
`LinAlgError`) is embedded as a vanishing determinant.
-/

namespace AnniesLasso

open Matrix

/-- Exact-arithmetic matrix inversion: `none` models numpy raising
`LinAlgError` on a singular matrix, `some` carries the inverse. -/
def matInv {n : ℕ} (A : Matrix (Fin n) (Fin n) ℚ) :
    Option (Matrix (Fin n) (Fin n) ℚ) :=
  if A.det = 0 then none else some (A.det⁻¹ • A.adjugate)

theorem matInv_none_iff {n : ℕ} (A : Matrix (Fin n) (Fin n) ℚ) :
    matInv A = none ↔ A.det = 0 := by
  unfold matInv
  split <;> simp_all

theorem matInv_mul {n : ℕ} (A B : Matrix (Fin n) (Fin n) ℚ)
    (h : matInv A = some B) : A * B = 1 := by
  unfold matInv at h
  split at h
  · exact absurd h (by simp)
  · rename_i hdet
    obtain rfl : A.det⁻¹ • A.adjugate = B := by simpa using h
    rw [Matrix.mul_smul, Matrix.mul_adjugate, smul_smul,
      inv_mul_cancel₀ hdet, one_smul]

/-- `ivar / (1 + ivar * scatter^2)`: the measurement inverse variance
inflated by the intrinsic scatter term and re-inverted
(`cannon.py` line 409, also lines 227 and 270). -/
def effective_ivar {M : ℕ} (normalized_ivar : Fin M → ℚ) (scatter : ℚ) :
    Fin M → ℚ :=
  fun i => normalized_ivar i / (1 + normalized_ivar i * scatter ^ 2)

/-- Result of `_fit_theta`: the coefficients, the (optional) inverse of the
weighted Gram matrix, the effective inverse variance actually used, and the
design matrix handed back to the caller. -/
structure FitThetaResult (M K : ℕ) where
  theta : Fin K → ℚ
  ATCiAinv : Option (Matrix (Fin K) (Fin K) ℚ)
  inv_var : Fin M → ℚ
  dm : Matrix (Fin M) (Fin K) ℚ

/-- The weighted Gram matrix `design_matrix^T · (design_matrix * ivar[:,None])`
exactly as the code forms it: `CiA = design_matrix * tile(ivar, (K,1)).T`
then `design_matrix.T @ CiA` (`cannon.py` lines 410-412). -/
def gramCode {M K : ℕ} (D : Matrix (Fin M) (Fin K) ℚ) (ivar : Fin M → ℚ) :
    Matrix (Fin K) (Fin K) ℚ :=
  D.transpose * Matrix.of (fun i j => D i j * ivar i)

/-- `_fit_theta` (`cannon.py` lines 386-421): weighted least squares for one
pixel at a given scatter; on a singular Gram matrix it falls back to
`theta = [1, 0, ..., 0]` with no covariance. -/
def _fit_theta {M K : ℕ} (D : Matrix (Fin M) (Fin K) ℚ)
    (normalized_flux normalized_ivar : Fin M → ℚ) (scatter : ℚ) :
    FitThetaResult M K :=
  match matInv (gramCode D (effective_ivar normalized_ivar scatter)) with
  | none =>
      ⟨fun j => if j.val = 0 then 1 else 0, none,
        effective_ivar normalized_ivar scatter, D⟩
  | some ATCiAinv =>
      ⟨ATCiAinv.mulVec (D.transpose.mulVec
          (fun i => normalized_flux i * effective_ivar normalized_ivar scatter i)),
        some ATCiAinv, effective_ivar normalized_ivar scatter, D⟩

/-- The Gram matrix as the spec words it:
`A = design_matrix^T · diag(effective_ivar) · design_matrix`. -/
def gramSpec {M K : ℕ} (D : Matrix (Fin M) (Fin K) ℚ) (ivar : Fin M → ℚ) :
    Matrix (Fin K) (Fin K) ℚ :=
  D.transpose * Matrix.diagonal ivar * D

theorem gramCode_eq_gramSpec {M K : ℕ} (D : Matrix (Fin M) (Fin K) ℚ)
    (ivar : Fin M → ℚ) : gramCode D ivar = gramSpec D ivar := by
  unfold gramCode gramSpec
  rw [Matrix.mul_assoc]
  congr 1
  ext i j
  simp [Matrix.mul_apply, Matrix.diagonal, mul_comm]

theorem fit_theta_of_matInv_some {M K : ℕ} (D : Matrix (Fin M) (Fin K) ℚ)
    (flux nivar : Fin M → ℚ) (s : ℚ) (B : Matrix (Fin K) (Fin K) ℚ)
    (hm : matInv (gramCode D (effective_ivar nivar s)) = some B) :
    _fit_theta D flux nivar s =
      ⟨B.mulVec (D.transpose.mulVec (fun i => flux i * effective_ivar nivar s i)),
        some B, effective_ivar nivar s, D⟩ := by
  unfold _fit_theta
  rw [hm]

theorem fit_theta_of_matInv_none {M K : ℕ} (D : Matrix (Fin M) (Fin K) ℚ)
    (flux nivar : Fin M → ℚ) (s : ℚ)
    (hm : matInv (gramCode D (effective_ivar nivar s)) = none) :
    _fit_theta D flux nivar s =
      ⟨fun j => if j.val = 0 then 1 else 0, none, effective_ivar nivar s, D⟩ := by
  unfold _fit_theta
  rw [hm]

/-- The concrete design matrix of the spec's worked scenario:
rows `[[1,0],[1,1],[1,2]]`. -/
def exThetaD : Matrix (Fin 3) (Fin 2) ℚ := Matrix.of ![![1, 0], ![1, 1], ![1, 2]]

/-- The concrete flux vector `[1,2,3]` of the spec's worked scenario. -/
def exFlux : Fin 3 → ℚ := ![1, 2, 3]

/-- The concrete inverse-variance vector `[1,1,1]` of the worked scenario. -/
def exIvar : Fin 3 → ℚ := ![1, 1, 1]

theorem ex_eiv : effective_ivar exIvar 0 = fun _ => 1 := by
  funext i
  fin_cases i <;> simp [effective_ivar, exIvar]

theorem ex_gram : gramCode exThetaD (fun _ => 1) = Matrix.of ![![3, 3], ![3, 5]] := by
  ext i j
  fin_cases i <;> fin_cases j <;>
    simp [exThetaD, gramCode, Matrix.mul_apply, Fin.sum_univ_succ, Matrix.transpose] <;>
    norm_num

theorem ex_matInv : matInv (Matrix.of ![![(3 : ℚ), 3], ![3, 5]])
    = some (Matrix.of ![![5/6, -1/2], ![-1/2, 1/2]]) := by
  unfold matInv
  rw [if_neg]
  · congr 1
    rw [Matrix.det_fin_two, Matrix.adjugate_fin_two]
    ext i j
    fin_cases i <;> fin_cases j <;> simp <;> norm_num
  · rw [Matrix.det_fin_two]; norm_num

/-- C1: for every pixel with non-singular weighted Gram matrix, the solver's
theta solves `A · theta = design_matrix^T · (flux · effective_ivar)` with
`A = design_matrix^T · diag(effective_ivar) · design_matrix` and
`effective_ivar = ivar / (1 + ivar · scatter^2)`; in particular, for design
matrix rows `[[1,0],[1,1],[1,2]]`, `flux = [1,2,3]`, `ivar = [1,1,1]` and
scatter fixed at `0`, it returns exactly `theta = [1,1]`. -/
theorem claim_C1_weighted_least_squares :
    (∀ (M K : ℕ) (D : Matrix (Fin M) (Fin K) ℚ) (flux nivar : Fin M → ℚ) (s : ℚ),
      (gramSpec D (effective_ivar nivar s)).det ≠ 0 →
        (gramSpec D (effective_ivar nivar s)).mulVec (_fit_theta D flux nivar s).theta
          = D.transpose.mulVec (fun i => flux i * effective_ivar nivar s i))
    ∧ (_fit_theta exThetaD exFlux exIvar 0).theta = ![1, 1] := by
  constructor
  · intro M K D flux nivar s h
    rw [← gramCode_eq_gramSpec] at h ⊢
    have hm : matInv (gramCode D (effective_ivar nivar s))
        = some ((gramCode D (effective_ivar nivar s)).det⁻¹ •
            (gramCode D (effective_ivar nivar s)).adjugate) := by
      unfold matInv
      rw [if_neg h]
    rw [fit_theta_of_matInv_some D flux nivar s _ hm]
    dsimp only
    rw [Matrix.mulVec_mulVec, matInv_mul _ _ hm, Matrix.one_mulVec]
  · have hm : matInv (gramCode exThetaD (effective_ivar exIvar 0))
        = some (Matrix.of ![![5/6, -1/2], ![-1/2, 1/2]]) := by
      rw [ex_eiv, ex_gram]
      exact ex_matInv
    rw [fit_theta_of_matInv_some exThetaD exFlux exIvar 0 _ hm]
    dsimp only
    rw [ex_eiv]
    funext i
    fin_cases i <;>
      simp [exThetaD, exFlux, Matrix.mulVec, Matrix.dotProduct, Fin.sum_univ_succ,
        Matrix.transpose] <;>
      norm_num

/-- Witness for C1 at the spec's concrete scenario. -/
theorem claim_C1_witness :
    (gramSpec exThetaD (effective_ivar exIvar 0)).mulVec
        (_fit_theta exThetaD exFlux exIvar 0).theta
      = exThetaD.transpose.mulVec (fun i => exFlux i * effective_ivar exIvar 0 i) :=
  claim_C1_weighted_least_squares.1 3 2 exThetaD exFlux exIvar 0 (by
    rw [← gramCode_eq_gramSpec, ex_eiv, ex_gram, Matrix.det_fin_two]
    norm_num)

/-- A degenerate 1×1 design matrix (a pixel with no informative stars). -/
def exSingD : Matrix (Fin 1) (Fin 1) ℚ := Matrix.of ![![0]]

/-- C2: whenever the weighted Gram matrix is singular, the solver returns
(without raising) the fallback theta whose first coefficient is 1 and all
others 0, together with an absent covariance-inverse sentinel. -/
theorem claim_C2_singular_fallback :
    ∀ (M K : ℕ) (D : Matrix (Fin M) (Fin K) ℚ) (flux nivar : Fin M → ℚ) (s : ℚ),
      (gramSpec D (effective_ivar nivar s)).det = 0 →
        (∀ j : Fin K, (_fit_theta D flux nivar s).theta j = if j.val = 0 then 1 else 0)
        ∧ (_fit_theta D flux nivar s).ATCiAinv = none := by
  intro M K D flux nivar s h
  rw [← gramCode_eq_gramSpec] at h
  rw [fit_theta_of_matInv_none D flux nivar s ((matInv_none_iff _).2 h)]
  exact ⟨fun j => rfl, rfl⟩

/-- Witness for C2 on a singular 1×1 system. -/
theorem claim_C2_witness :
    (∀ j : Fin 1, (_fit_theta exSingD ![0] ![1] 0).theta j = if j.val = 0 then 1 else 0)
    ∧ (_fit_theta exSingD ![0] ![1] 0).ATCiAinv = none :=
  claim_C2_singular_fallback 1 1 exSingD ![0] ![1] 0 (by
    rw [Matrix.det_fin_one]
    simp [gramSpec, exSingD, Matrix.mul_apply, Fin.sum_univ_succ])

/-- Modelled from the spec: `model._chi_sq` (imported from the `model`
module, which is not among the sources) is the ivar-weighted sum of squared
residuals between `design_matrix · theta` and the observed flux. -/
def _chi_sq {M K : ℕ} (theta : Fin K → ℚ) (D : Matrix (Fin M) (Fin K) ℚ)
    (normalized_flux inv_var : Fin M → ℚ) : ℚ :=
  ∑ i, inv_var i * (D.mulVec theta i - normalized_flux i) ^ 2

/-- Modelled from the spec: `model._log_det` (imported from the `model`
module, which is not among the sources) is the sum of `-log(effective_ivar)`
over stars; the numeric logarithm is abstracted as the parameter `log`. -/
def _log_det {M : ℕ} (log : ℚ → ℚ) (inv_var : Fin M → ℚ) : ℚ :=
  ∑ i, -(log (inv_var i))

/-- `_fit_pixel_with_fixed_scatter` (`cannon.py` lines 352-383): the scatter
optimisation objective.  It is `0` when the inner linear solve is singular,
and otherwise chi-square plus the log-determinant penalty at the solved
theta, both evaluated with the effective inverse variance handed back by
`_fit_theta`. -/
def _fit_pixel_with_fixed_scatter {M K : ℕ} (log : ℚ → ℚ)
    (D : Matrix (Fin M) (Fin K) ℚ) (scatter : ℚ)
    (normalized_flux normalized_ivar : Fin M → ℚ) : ℚ :=
  match _fit_theta D normalized_flux normalized_ivar scatter with
  | ⟨_, none, _, _⟩ => 0
  | ⟨theta, some _, inv_var, dm⟩ =>
      _chi_sq theta dm normalized_flux inv_var + _log_det log inv_var

/-- The external 1-D optimiser interface (`scipy.optimize.fmin_powell`,
called with `full_output=True`): from an objective and a starting point it
produces the optimised point and a warnflag (`0` on convergence, `1` when
the function-evaluation budget was exhausted, `2` when the iteration budget
was exhausted). -/
def Optimizer : Type := (ℚ → ℚ) → ℚ → ℚ × ℕ

/-- Result of a single pixel fit (`np.hstack([theta, scatter])` in the
code), together with the warnings the code logs along the way. -/
structure PixelFitResult (K : ℕ) where
  theta : Fin K → ℚ
  scatter : ℚ
  warnings : List String

/-- `_fit_pixel` (`cannon.py` lines 300-349): solve once at the given
scatter; on a singular system or a fixed scatter, stop there (emitting the
fixed scatter, or `0` in the singular case); otherwise optimise the scatter
against `_fit_pixel_with_fixed_scatter` and re-solve once at the optimum. -/
def _fit_pixel {M K : ℕ} (optimizer : Optimizer) (log : ℚ → ℚ)
    (D : Matrix (Fin M) (Fin K) ℚ) (normalized_flux normalized_ivar : Fin M → ℚ)
    (scatter : ℚ) (fixed_scatter : Bool) : PixelFitResult K :=
  if (_fit_theta D normalized_flux normalized_ivar scatter).ATCiAinv = none
      ∨ fixed_scatter = true then
    ⟨(_fit_theta D normalized_flux normalized_ivar scatter).theta,
      if fixed_scatter then scatter else 0, []⟩
  else
    match optimizer
      (fun s => _fit_pixel_with_fixed_scatter log D s normalized_flux normalized_ivar)
      scatter with
    | (op_scatter, warnflag) =>
        ⟨(_fit_theta D normalized_flux normalized_ivar op_scatter).theta, op_scatter,
          if warnflag > 0 then
            [(["Maximum number of function evaluations made during optimisation.",
               "Maximum number of iterations made during optimisation."].getD
                (warnflag - 1) "")]
          else []⟩

/-- C5: at every trial scatter where the linear solve succeeds, the scatter
objective equals `chi_square(theta(s)) + log_det(effective_ivar(s))` with
`theta(s)` the solver's result at `s`; at every trial scatter where the
solve is singular the objective is exactly `0` rather than an exception. -/
theorem claim_C5_scatter_objective :
    ∀ (M K : ℕ) (log : ℚ → ℚ) (D : Matrix (Fin M) (Fin K) ℚ)
      (flux nivar : Fin M → ℚ) (s : ℚ),
      ((gramSpec D (effective_ivar nivar s)).det ≠ 0 →
        _fit_pixel_with_fixed_scatter log D s flux nivar
          = _chi_sq (_fit_theta D flux nivar s).theta D flux (effective_ivar nivar s)
            + _log_det log (effective_ivar nivar s))
      ∧ ((gramSpec D (effective_ivar nivar s)).det = 0 →
        _fit_pixel_with_fixed_scatter log D s flux nivar = 0) := by
  intro M K log D flux nivar s
  constructor
  · intro h
    rw [← gramCode_eq_gramSpec] at h
    have hm : matInv (gramCode D (effective_ivar nivar s))
        = some ((gramCode D (effective_ivar nivar s)).det⁻¹ •
            (gramCode D (effective_ivar nivar s)).adjugate) := by
      unfold matInv
      rw [if_neg h]
    unfold _fit_pixel_with_fixed_scatter
    rw [fit_theta_of_matInv_some D flux nivar s _ hm]
  · intro h
    rw [← gramCode_eq_gramSpec] at h
    unfold _fit_pixel_with_fixed_scatter
    rw [fit_theta_of_matInv_none D flux nivar s ((matInv_none_iff _).2 h)]

/-- Witness for C5: both arms exercised on concrete systems. -/
theorem claim_C5_witness :
    (_fit_pixel_with_fixed_scatter id exThetaD 0 exFlux exIvar
        = _chi_sq (_fit_theta exThetaD exFlux exIvar 0).theta exThetaD exFlux
            (effective_ivar exIvar 0)
          + _log_det id (effective_ivar exIvar 0))
    ∧ _fit_pixel_with_fixed_scatter id exSingD 0 ![0] ![1] = 0 :=
  ⟨(claim_C5_scatter_objective 3 2 id exThetaD exFlux exIvar 0).1 (by
      rw [← gramCode_eq_gramSpec, ex_eiv, ex_gram, Matrix.det_fin_two]
      norm_num),
   (claim_C5_scatter_objective 1 1 id exSingD ![0] ![1] 0).2 (by
      rw [Matrix.det_fin_one]
      simp [gramSpec, exSingD, Matrix.mul_apply, Fin.sum_univ_succ])⟩

theorem fit_pixel_of_nonsingular {M K : ℕ} (optimizer : Optimizer) (log : ℚ → ℚ)
    (D : Matrix (Fin M) (Fin K) ℚ) (flux nivar : Fin M → ℚ) (s : ℚ)
    (h : ¬(_fit_theta D flux nivar s).ATCiAinv = none) :
    _fit_pixel optimizer log D flux nivar s false =
      ⟨(_fit_theta D flux nivar
          (optimizer (fun t => _fit_pixel_with_fixed_scatter log D t flux nivar) s).1).theta,
        (optimizer (fun t => _fit_pixel_with_fixed_scatter log D t flux nivar) s).1,
        if (optimizer (fun t => _fit_pixel_with_fixed_scatter log D t flux nivar) s).2 > 0 then
          [(["Maximum number of function evaluations made during optimisation.",
             "Maximum number of iterations made during optimisation."].getD
              ((optimizer
                (fun t => _fit_pixel_with_fixed_scatter log D t flux nivar) s).2 - 1) "")]
        else []⟩ := by
  unfold _fit_pixel
  rw [if_neg (by simpa using h)]

theorem fit_theta_even {M K : ℕ} (D : Matrix (Fin M) (Fin K) ℚ)
    (flux nivar : Fin M → ℚ) (s : ℚ) :
    _fit_theta D flux nivar (-s) = _fit_theta D flux nivar s := by
  have heiv : effective_ivar nivar (-s) = effective_ivar nivar s := by
    funext i
    simp only [effective_ivar, neg_sq]
  unfold _fit_theta
  rw [heiv]

theorem objective_even {M K : ℕ} (log : ℚ → ℚ) (D : Matrix (Fin M) (Fin K) ℚ)
    (flux nivar : Fin M → ℚ) (s : ℚ) :
    _fit_pixel_with_fixed_scatter log D (-s) flux nivar
      = _fit_pixel_with_fixed_scatter log D s flux nivar := by
  unfold _fit_pixel_with_fixed_scatter
  rw [fit_theta_even]

/-- C10: the weighted least-squares solve is an even function of the
scatter — `_fit_theta` returns identical results (all components) at `s`
and `-s`, because scatter enters only through `scatter^2` — hence the
scatter objective satisfies `Q(s) = Q(-s)` for every abstract logarithm,
and negating the scatter the optimizer returns changes neither the pixel's
theta nor its emitted squared scatter. -/
theorem claim_C10_scatter_evenness :
    ∀ (M K : ℕ) (D : Matrix (Fin M) (Fin K) ℚ) (flux nivar : Fin M → ℚ) (s : ℚ),
      _fit_theta D flux nivar s = _fit_theta D flux nivar (-s)
      ∧ (∀ log : ℚ → ℚ,
          _fit_pixel_with_fixed_scatter log D s flux nivar
            = _fit_pixel_with_fixed_scatter log D (-s) flux nivar)
      ∧ (∀ (optimizer : Optimizer) (log : ℚ → ℚ) (fs : Bool),
          (_fit_pixel (fun F t => (-(optimizer F t).1, (optimizer F t).2))
              log D flux nivar s fs).theta
            = (_fit_pixel optimizer log D flux nivar s fs).theta
          ∧ (_fit_pixel (fun F t => (-(optimizer F t).1, (optimizer F t).2))
              log D flux nivar s fs).scatter ^ 2
            = (_fit_pixel optimizer log D flux nivar s fs).scatter ^ 2) := by
  intro M K D flux nivar s
  refine ⟨(fit_theta_even D flux nivar s).symm,
    fun log => (objective_even log D flux nivar s).symm, ?_⟩
  intro optimizer log fs
  by_cases hc : (_fit_theta D flux nivar s).ATCiAinv = none ∨ fs = true
  · unfold _fit_pixel
    rw [if_pos hc, if_pos hc]
    exact ⟨rfl, rfl⟩
  · have hns : ¬(_fit_theta D flux nivar s).ATCiAinv = none := fun h0 => hc (Or.inl h0)
    have hfs : fs = false := by
      cases fs
      · rfl
      · exact absurd (Or.inr rfl) hc
    subst hfs
    rw [fit_pixel_of_nonsingular optimizer log D flux nivar s hns,
      fit_pixel_of_nonsingular
        (fun F t => (-(optimizer F t).1, (optimizer F t).2)) log D flux nivar s hns]
    dsimp only
    exact ⟨by rw [fit_theta_even], by rw [neg_sq]⟩

theorem fit_theta_singular_iff {M K : ℕ} (D : Matrix (Fin M) (Fin K) ℚ)
    (flux nivar : Fin M → ℚ) (s : ℚ) :
    (_fit_theta D flux nivar s).ATCiAinv = none
      ↔ matInv (gramCode D (effective_ivar nivar s)) = none := by
  rcases h : matInv (gramCode D (effective_ivar nivar s)) with _ | B
  · rw [fit_theta_of_matInv_none D flux nivar s h]
  · rw [fit_theta_of_matInv_some D flux nivar s B h]

/-- A trivial concrete optimiser: returns the starting point, converged. -/
def exOpt : Optimizer := fun _ t => (t, 0)

/-- C4: per-pixel fit policy — with fixed scatter the solver is called once
at that value and the scatter is emitted unchanged without invoking the
optimizer (the result is the same for every optimizer); if the first solve
at the initial scatter guess is singular, the fallback theta is emitted with
scatter `0` and the optimizer is never invoked; otherwise the optimizer runs
and theta is obtained by one extra re-solve at the optimal scatter. -/
theorem claim_C4_pixel_policy :
    ∀ (M K : ℕ) (optimizer : Optimizer) (log : ℚ → ℚ)
      (D : Matrix (Fin M) (Fin K) ℚ) (flux nivar : Fin M → ℚ) (s : ℚ),
      (_fit_pixel optimizer log D flux nivar s true
          = ⟨(_fit_theta D flux nivar s).theta, s, []⟩)
      ∧ ((_fit_theta D flux nivar s).ATCiAinv = none →
          _fit_pixel optimizer log D flux nivar s false
            = ⟨fun j => if j.val = 0 then 1 else 0, 0, []⟩)
      ∧ ((_fit_theta D flux nivar s).ATCiAinv ≠ none →
          (_fit_pixel optimizer log D flux nivar s false).theta
              = (_fit_theta D flux nivar
                  ((optimizer
                    (fun t => _fit_pixel_with_fixed_scatter log D t flux nivar) s).1)).theta
          ∧ (_fit_pixel optimizer log D flux nivar s false).scatter
              = (optimizer
                  (fun t => _fit_pixel_with_fixed_scatter log D t flux nivar) s).1) := by
  intro M K optimizer log D flux nivar s
  refine ⟨?_, ?_, ?_⟩
  · unfold _fit_pixel
    rw [if_pos (Or.inr rfl)]
    rfl
  · intro h
    have hm := (fit_theta_singular_iff D flux nivar s).1 h
    unfold _fit_pixel
    rw [if_pos (Or.inl h), fit_theta_of_matInv_none D flux nivar s hm]
    rfl
  · intro h
    unfold _fit_pixel
    rw [if_neg (by simpa using h)]
    rcases ho : optimizer
        (fun t => _fit_pixel_with_fixed_scatter log D t flux nivar) s with ⟨os, wf⟩
    exact ⟨rfl, rfl⟩

/-- Witness for C4: all three policy branches at concrete inputs. -/
theorem claim_C4_witness :
    (_fit_pixel exOpt id exThetaD exFlux exIvar 0 true
        = ⟨(_fit_theta exThetaD exFlux exIvar 0).theta, 0, []⟩)
    ∧ (_fit_pixel exOpt id exSingD ![0] ![1] 0 false
        = ⟨fun j => if j.val = 0 then 1 else 0, 0, []⟩)
    ∧ ((_fit_pixel exOpt id exThetaD exFlux exIvar 0 false).theta
          = (_fit_theta exThetaD exFlux exIvar
              ((exOpt
                (fun t => _fit_pixel_with_fixed_scatter id exThetaD t exFlux exIvar) 0).1)).theta
        ∧ (_fit_pixel exOpt id exThetaD exFlux exIvar 0 false).scatter
          = (exOpt
              (fun t => _fit_pixel_with_fixed_scatter id exThetaD t exFlux exIvar) 0).1) :=
  ⟨(claim_C4_pixel_policy 3 2 exOpt id exThetaD exFlux exIvar 0).1,
   (claim_C4_pixel_policy 1 1 exOpt id exSingD ![0] ![1] 0).2.1 (by
      rw [fit_theta_singular_iff, matInv_none_iff, gramCode_eq_gramSpec,
        Matrix.det_fin_one]
      simp [gramSpec, exSingD, Matrix.mul_apply, Fin.sum_univ_succ]),
   (claim_C4_pixel_policy 3 2 exOpt id exThetaD exFlux exIvar 0).2.2 (by
      rw [fit_theta_of_matInv_some exThetaD exFlux exIvar 0 _ (by
        rw [ex_eiv, ex_gram]; exact ex_matInv)]
      simp)⟩

/-- An IEEE-style numeric value: a finite rational or a non-finite value
(infinity or NaN).  Arithmetic touching a non-finite operand is non-finite,
and division by zero is non-finite. -/
inductive FP where
  | fin (q : ℚ)
  | nonfin
deriving DecidableEq

def FP.mul : FP → FP → FP
  | FP.fin a, FP.fin b => FP.fin (a * b)
  | _, _ => FP.nonfin

def FP.add : FP → FP → FP
  | FP.fin a, FP.fin b => FP.fin (a + b)
  | _, _ => FP.nonfin

def FP.div : FP → FP → FP
  | FP.fin a, FP.fin b => if b = 0 then FP.nonfin else FP.fin (a / b)
  | _, _ => FP.nonfin

def FP.isFinite : FP → Bool
  | FP.fin _ => true
  | FP.nonfin => false

/-- The floating square root, lifted to `FP` with `sqrt` abstracting the
external numeric routine on finite values. -/
def FP.sqrtF (sqrt : ℚ → ℚ) : FP → FP
  | FP.fin q => FP.fin (sqrt q)
  | FP.nonfin => FP.nonfin

theorem FP.isFinite_mul (a b : FP) :
    (a.mul b).isFinite = (a.isFinite && b.isFinite) := by
  cases a <;> cases b <;> rfl

/-- The per-pixel effective inverse variance of the spectrum fitter,
`inv_var = normalized_ivar / (1 + normalized_ivar * s2)`
(`cannon.py` line 270), in IEEE-style arithmetic. -/
def spectrum_inv_var {N : ℕ} (normalized_ivar : Fin N → FP) (s2 : Fin N → ℚ) :
    Fin N → FP :=
  fun i => (normalized_ivar i).div
    ((FP.fin 1).add ((normalized_ivar i).mul (FP.fin (s2 i))))

/-- The retained-pixel mask `use = np.isfinite(inv_var * normalized_flux)`
(`cannon.py` line 271), as the ordered list of retained pixel indices. -/
def useMask {N : ℕ} (normalized_flux normalized_ivar : Fin N → FP)
    (s2 : Fin N → ℚ) : List (Fin N) :=
  (List.finRange N).filter
    (fun i =>
      ((spectrum_inv_var normalized_ivar s2 i).mul (normalized_flux i)).isFinite)

/-- The external Vectorizer interface: the spectrum fitter reads only its
fiducial label values. -/
structure Vectorizer (L : ℕ) where
  fiducials : Fin L → ℚ

/-- Everything `_fit_spectrum` hands to the external nonlinear solver
`scipy.optimize.curve_fit`: the initial guess `p0`, the evaluation cap
`maxfev`, the per-pixel sigmas, the absolute-sigma flag, and the masked
data `theta[use]` and `normalized_flux[use]`. -/
structure CurveFitArgs (K L : ℕ) where
  p0 : Fin L → ℚ
  maxfev : ℕ
  sigma : List FP
  absolute_sigma : Bool
  xdata : List (Fin K → ℚ)
  ydata : List FP

/-- The arguments `_fit_spectrum` (`cannon.py` lines 269-283) builds for
`curve_fit`: fiducial starting labels, `maxfev = 10**6`,
`sigma = sqrt(1 / inv_var[use])` with `absolute_sigma` set, and the masked
`theta[use]` and `normalized_flux[use]`. -/
def _fit_spectrum_kwds {N K L : ℕ} (sqrt : ℚ → ℚ) (vectorizer : Vectorizer L)
    (theta : Fin N → Fin K → ℚ) (s2 : Fin N → ℚ)
    (normalized_flux normalized_ivar : Fin N → FP) : CurveFitArgs K L :=
  ⟨vectorizer.fiducials, 10 ^ 6,
    (useMask normalized_flux normalized_ivar s2).map
      (fun i => FP.sqrtF sqrt ((FP.fin 1).div (spectrum_inv_var normalized_ivar s2 i))),
    true,
    (useMask normalized_flux normalized_ivar s2).map theta,
    (useMask normalized_flux normalized_ivar s2).map normalized_flux⟩

/-- `_fit_spectrum` (`cannon.py` lines 233-283): mask the bad pixels, then
hand the masked data to the external `curve_fit`, whose failure (a
`RuntimeError` when the evaluation budget is exceeded) surfaces as this one
spectrum's error value. -/
def _fit_spectrum {N K L : ℕ} (sqrt : ℚ → ℚ)
    (curve_fit :
      CurveFitArgs K L → Except String ((Fin L → ℚ) × Matrix (Fin L) (Fin L) ℚ))
    (vectorizer : Vectorizer L) (theta : Fin N → Fin K → ℚ) (s2 : Fin N → ℚ)
    (normalized_flux normalized_ivar : Fin N → FP) :
    Except String ((Fin L → ℚ) × Matrix (Fin L) (Fin L) ℚ) :=
  curve_fit (_fit_spectrum_kwds sqrt vectorizer theta s2 normalized_flux normalized_ivar)

/-- The per-spectrum mapping of `CannonModel.fit` (`cannon.py` lines
183-203).  Modelled from the spec in one respect: the wrapper
`utils.wrapper` applied to `_fit_spectrum` is not among the sources, and per
the spec a failed nonlinear fit is reported as that spectrum's own failure
while sibling fits proceed, so each spectrum yields its own result value. -/
def fit_spectra {N K L : ℕ} (sqrt : ℚ → ℚ)
    (curve_fit :
      CurveFitArgs K L → Except String ((Fin L → ℚ) × Matrix (Fin L) (Fin L) ℚ))
    (vectorizer : Vectorizer L) (theta : Fin N → Fin K → ℚ) (s2 : Fin N → ℚ)
    (spectra : List ((Fin N → FP) × (Fin N → FP))) :
    List (Except String ((Fin L → ℚ) × Matrix (Fin L) (Fin L) ℚ)) :=
  spectra.map
    (fun p => _fit_spectrum sqrt curve_fit vectorizer theta s2 p.1 p.2)

/-- C6: the spectrum fitter retains exactly the pixels whose effective
inverse variance and flux are both finite (non-finite pixels are dropped
from the residual vector, not down-weighted), feeds the solver the absolute
per-pixel sigma `sqrt(1 / effective_ivar)` over the retained pixels, and
starts from the Vectorizer's fiducial labels. -/
theorem claim_C6_spectrum_masking :
    ∀ (N K L : ℕ) (sqrt : ℚ → ℚ)
      (curve_fit :
        CurveFitArgs K L → Except String ((Fin L → ℚ) × Matrix (Fin L) (Fin L) ℚ))
      (v : Vectorizer L) (theta : Fin N → Fin K → ℚ) (s2 : Fin N → ℚ)
      (flux nivar : Fin N → FP),
      (∀ i : Fin N, i ∈ useMask flux nivar s2
        ↔ ((spectrum_inv_var nivar s2 i).isFinite ∧ (flux i).isFinite))
      ∧ (_fit_spectrum_kwds sqrt v theta s2 flux nivar).sigma
          = (useMask flux nivar s2).map
              (fun i => FP.sqrtF sqrt ((FP.fin 1).div (spectrum_inv_var nivar s2 i)))
      ∧ (_fit_spectrum_kwds sqrt v theta s2 flux nivar).xdata
          = (useMask flux nivar s2).map theta
      ∧ (_fit_spectrum_kwds sqrt v theta s2 flux nivar).ydata
          = (useMask flux nivar s2).map flux
      ∧ (_fit_spectrum_kwds sqrt v theta s2 flux nivar).absolute_sigma = true
      ∧ (_fit_spectrum_kwds sqrt v theta s2 flux nivar).p0 = v.fiducials
      ∧ _fit_spectrum sqrt curve_fit v theta s2 flux nivar
          = curve_fit (_fit_spectrum_kwds sqrt v theta s2 flux nivar) := by
  intro N K L sqrt curve_fit v theta s2 flux nivar
  refine ⟨?_, rfl, rfl, rfl, rfl, rfl, rfl⟩
  intro i
  simp [useMask, List.mem_filter, List.mem_finRange, FP.isFinite_mul,
    Bool.and_eq_true]

/-- A concrete external solver that always fails (as `curve_fit` does by
raising `RuntimeError` when `maxfev` is exhausted). -/
def exCurveFitFail :
    CurveFitArgs 1 1 → Except String ((Fin 1 → ℚ) × Matrix (Fin 1) (Fin 1) ℚ) :=
  fun _ => Except.error "Optimal parameters not found: maxfev exceeded"

/-- A concrete one-label Vectorizer. -/
def exVec : Vectorizer 1 := ⟨![0]⟩

/-- A concrete optimiser that reports an exhausted evaluation budget. -/
def exOptWarn : Optimizer := fun _ t => (t, 1)

/-- C7: budget exhaustion is recovered — in the scatter case the
possibly-suboptimal scatter/theta pair is still used and a warning is
logged; in the spectrum case the solver is given the finite cap
`maxfev = 10^6` and its failure becomes that one spectrum's error value
while every sibling spectrum's result is exactly its own fit, unaffected. -/
theorem claim_C7_budget_exhaustion :
    (∀ (M K : ℕ) (optimizer : Optimizer) (log : ℚ → ℚ)
      (D : Matrix (Fin M) (Fin K) ℚ) (flux nivar : Fin M → ℚ) (s : ℚ),
      (_fit_theta D flux nivar s).ATCiAinv ≠ none →
      (optimizer (fun t => _fit_pixel_with_fixed_scatter log D t flux nivar) s).2 > 0 →
        (_fit_pixel optimizer log D flux nivar s false).warnings ≠ []
        ∧ (_fit_pixel optimizer log D flux nivar s false).scatter
            = (optimizer (fun t => _fit_pixel_with_fixed_scatter log D t flux nivar) s).1
        ∧ (_fit_pixel optimizer log D flux nivar s false).theta
            = (_fit_theta D flux nivar
                (optimizer
                  (fun t => _fit_pixel_with_fixed_scatter log D t flux nivar) s).1).theta)
    ∧ (∀ (N K L : ℕ) (sqrt : ℚ → ℚ)
        (curve_fit :
          CurveFitArgs K L → Except String ((Fin L → ℚ) × Matrix (Fin L) (Fin L) ℚ))
        (v : Vectorizer L) (theta : Fin N → Fin K → ℚ) (s2 : Fin N → ℚ)
        (flux nivar : Fin N → FP) (e : String),
        (_fit_spectrum_kwds sqrt v theta s2 flux nivar).maxfev = 10 ^ 6
        ∧ (curve_fit (_fit_spectrum_kwds sqrt v theta s2 flux nivar) = Except.error e →
            _fit_spectrum sqrt curve_fit v theta s2 flux nivar = Except.error e))
    ∧ (∀ (N K L : ℕ) (sqrt : ℚ → ℚ)
        (curve_fit :
          CurveFitArgs K L → Except String ((Fin L → ℚ) × Matrix (Fin L) (Fin L) ℚ))
        (v : Vectorizer L) (theta : Fin N → Fin K → ℚ) (s2 : Fin N → ℚ)
        (before after : List ((Fin N → FP) × (Fin N → FP)))
        (sp : (Fin N → FP) × (Fin N → FP)),
        fit_spectra sqrt curve_fit v theta s2 (before ++ sp :: after)
          = fit_spectra sqrt curve_fit v theta s2 before
            ++ _fit_spectrum sqrt curve_fit v theta s2 sp.1 sp.2
            :: fit_spectra sqrt curve_fit v theta s2 after) := by
  refine ⟨?_, ?_, ?_⟩
  · intro M K optimizer log D flux nivar s h hw
    unfold _fit_pixel
    rw [if_neg (by simpa using h)]
    rcases ho : optimizer
        (fun t => _fit_pixel_with_fixed_scatter log D t flux nivar) s with ⟨os, wf⟩
    rw [ho] at hw
    refine ⟨?_, rfl, rfl⟩
    simp only [gt_iff_lt] at hw
    simp [hw]
  · intro N K L sqrt curve_fit v theta s2 flux nivar e
    exact ⟨rfl, fun h => h⟩
  · intro N K L sqrt curve_fit v theta s2 before after sp
    simp [fit_spectra]

/-- Witness for C7: a budget-exhausting optimiser on the worked pixel, and
an always-failing solver on a one-pixel spectrum. -/
theorem claim_C7_witness :
    ((_fit_pixel exOptWarn id exThetaD exFlux exIvar 0 false).warnings ≠ []
      ∧ (_fit_pixel exOptWarn id exThetaD exFlux exIvar 0 false).scatter
          = (exOptWarn
              (fun t => _fit_pixel_with_fixed_scatter id exThetaD t exFlux exIvar) 0).1
      ∧ (_fit_pixel exOptWarn id exThetaD exFlux exIvar 0 false).theta
          = (_fit_theta exThetaD exFlux exIvar
              (exOptWarn
                (fun t => _fit_pixel_with_fixed_scatter id exThetaD t exFlux exIvar) 0).1).theta)
    ∧ @_fit_spectrum 1 1 1 (fun q => q) exCurveFitFail exVec (fun _ _ => 0)
          (fun _ => 0) (fun _ => FP.fin 1) (fun _ => FP.fin 1)
        = Except.error "Optimal parameters not found: maxfev exceeded" :=
  ⟨claim_C7_budget_exhaustion.1 3 2 exOptWarn id exThetaD exFlux exIvar 0
      (by
        rw [fit_theta_of_matInv_some exThetaD exFlux exIvar 0 _ (by
          rw [ex_eiv, ex_gram]; exact ex_matInv)]
        simp)
      (by norm_num [exOptWarn]),
   (claim_C7_budget_exhaustion.2.1 1 1 1 (fun q => q) exCurveFitFail exVec
      (fun _ _ => 0) (fun _ => 0) (fun _ => FP.fin 1) (fun _ => FP.fin 1)
      "Optimal parameters not found: maxfev exceeded").2 rfl⟩

/-- The trainable model state (the `model.BaseCannonModel` attributes read
by `CannonModel.train`).  Modelled from the spec in one respect: the base
class holding these attributes is not among the sources; per the spec the
training set is an M×N flux table with matching inverse variances, a
dispersion axis of length N used only for messaging (defaulted by the base
class when absent), the shared design matrix, and the trained `theta` and
`s2`, absent before training. -/
structure CannonModel (M N K : ℕ) where
  normalized_flux : Matrix (Fin M) (Fin N) ℚ
  normalized_ivar : Matrix (Fin M) (Fin N) ℚ
  dispersion : Fin N → ℚ
  design_matrix : Matrix (Fin M) (Fin K) ℚ
  theta : Option (Matrix (Fin N) (Fin K) ℚ)
  s2 : Option (Fin N → ℚ)

/-- The initial per-pixel scatter `p0_scatter` (`cannon.py` lines 83-85):
`sqrt(s2)` when the scatter is fixed, else `0.01 * np.ones_like(dispersion)`
— only the shape of the dispersion axis reaches the result, never its
values. -/
def trainP0 {M N K : ℕ} (sqrt : ℚ → ℚ) (m : CannonModel M N K)
    (fixed_scatter : Bool) : Fin N → ℚ :=
  if fixed_scatter then fun j => sqrt ((m.s2.getD (fun _ => 0)) j)
  else fun _ => 0.01 * 1

/-- `CannonModel.train` (`cannon.py` lines 67-151): fail fast when
`fixed_scatter` is set without `s2` present; otherwise seed the per-pixel
scatter, fit every pixel of the transposed training set, and store the
stacked thetas and the squares of the emitted scatters. -/
def CannonModel.train {M N K : ℕ} (sqrt log : ℚ → ℚ) (optimizer : Optimizer)
    (m : CannonModel M N K) (fixed_scatter : Bool) :
    Except String (CannonModel M N K) :=
  if fixed_scatter = true ∧ m.s2 = none then
    Except.error
      "intrinsic pixel variance (s2) must be set before training if fixed_scatter is set to True"
  else
    Except.ok
      ⟨m.normalized_flux, m.normalized_ivar, m.dispersion, m.design_matrix,
        some (Matrix.of fun j k =>
          (_fit_pixel optimizer log m.design_matrix
            (fun i => m.normalized_flux i j) (fun i => m.normalized_ivar i j)
            (trainP0 sqrt m fixed_scatter j) fixed_scatter).theta k),
        some (fun j =>
          (_fit_pixel optimizer log m.design_matrix
            (fun i => m.normalized_flux i j) (fun i => m.normalized_ivar i j)
            (trainP0 sqrt m fixed_scatter j) fixed_scatter).scatter ^ 2)⟩

/-- C3: training with `fixed_scatter` set while `s2` is unset raises the
configuration error before any per-pixel work is dispatched; no trained
model is produced, so `theta` and `s2` are untouched. -/
theorem claim_C3_fixed_scatter_precondition :
    ∀ (M N K : ℕ) (sqrt log : ℚ → ℚ) (optimizer : Optimizer)
      (m : CannonModel M N K),
      m.s2 = none →
        CannonModel.train sqrt log optimizer m true
          = Except.error
              "intrinsic pixel variance (s2) must be set before training if fixed_scatter is set to True" := by
  intro M N K sqrt log optimizer m h
  unfold CannonModel.train
  rw [if_pos ⟨rfl, h⟩]

/-- An untrained concrete model (`s2` unset). -/
def exModel0 : CannonModel 1 1 1 :=
  ⟨Matrix.of ![![1]], Matrix.of ![![1]], ![0], Matrix.of ![![1]], none, none⟩

/-- Witness for C3. -/
theorem claim_C3_witness :
    CannonModel.train id id exOpt exModel0 true
      = Except.error
          "intrinsic pixel variance (s2) must be set before training if fixed_scatter is set to True" :=
  claim_C3_fixed_scatter_precondition 1 1 1 id id exOpt exModel0 rfl

/-- C8: after every successful `train`, every stored `s2` entry is
non-negative — it is the square of the emitted per-pixel scatter, whatever
value the scalar optimizer returned. -/
theorem claim_C8_s2_nonneg :
    ∀ (M N K : ℕ) (sqrt log : ℚ → ℚ) (optimizer : Optimizer)
      (m : CannonModel M N K) (fixed_scatter : Bool) (m' : CannonModel M N K),
      CannonModel.train sqrt log optimizer m fixed_scatter = Except.ok m' →
        ∀ s2v, m'.s2 = some s2v → ∀ j, 0 ≤ s2v j := by
  intro M N K sqrt log optimizer m fs m' h s2v hs j
  unfold CannonModel.train at h
  split at h
  · exact absurd h (by simp)
  · simp only [Except.ok.injEq] at h
    subst h
    simp only [CannonModel.s2, Option.some.injEq] at hs
    subst hs
    exact sq_nonneg _

/-- A concrete model with `s2` preset, for a fixed-scatter training run. -/
def exModelFixed : CannonModel 1 1 1 :=
  ⟨Matrix.of ![![1]], Matrix.of ![![0]], ![0], Matrix.of ![![1]], none, some ![4]⟩

/-- The `s2` array produced by the fixed-scatter training run on
`exModelFixed`. -/
def exTrainedS2 : Fin 1 → ℚ :=
  fun j =>
    (_fit_pixel exOpt id exModelFixed.design_matrix
      (fun i => exModelFixed.normalized_flux i j)
      (fun i => exModelFixed.normalized_ivar i j)
      (trainP0 id exModelFixed true j) true).scatter ^ 2

/-- The model produced by the fixed-scatter training run on
`exModelFixed`. -/
def exTrainedM : CannonModel 1 1 1 :=
  ⟨exModelFixed.normalized_flux, exModelFixed.normalized_ivar,
    exModelFixed.dispersion, exModelFixed.design_matrix,
    some (Matrix.of fun j k =>
      (_fit_pixel exOpt id exModelFixed.design_matrix
        (fun i => exModelFixed.normalized_flux i j)
        (fun i => exModelFixed.normalized_ivar i j)
        (trainP0 id exModelFixed true j) true).theta k),
    some exTrainedS2⟩

/-- Witness for C8 on a concrete successful training run. -/
theorem claim_C8_witness : 0 ≤ exTrainedS2 0 :=
  claim_C8_s2_nonneg 1 1 1 id id exOpt exModelFixed true exTrainedM rfl
    exTrainedS2 rfl 0

/-- C9: the dispersion axis has no effect on the computed results — a
training run on a model and on the same model with any other dispersion
axis produce equal `theta` and `s2` (and fail identically), since the
dispersion is only a shape/messaging input. -/
theorem claim_C9_dispersion_irrelevant :
    ∀ (M N K : ℕ) (sqrt log : ℚ → ℚ) (optimizer : Optimizer)
      (m : CannonModel M N K) (d : Fin N → ℚ) (fixed_scatter : Bool),
      Except.map (fun m' => (m'.theta, m'.s2))
          (CannonModel.train sqrt log optimizer m fixed_scatter)
        = Except.map (fun m' => (m'.theta, m'.s2))
            (CannonModel.train sqrt log optimizer
              ⟨m.normalized_flux, m.normalized_ivar, d, m.design_matrix,
                m.theta, m.s2⟩ fixed_scatter) := by
  intro M N K sqrt log optimizer m d fs
  obtain ⟨f, iv, d0, dm, t, s⟩ := m
  unfold CannonModel.train trainP0
  dsimp only
  by_cases hc : fs = true ∧ s = none
  · rw [if_pos hc, if_pos hc]
  · rw [if_neg hc, if_neg hc]
    rfl

end AnniesLasso
